import Mathlib

/-!
Verification of the Plan/Budget/Receipt engine (plans module).

This file is a shallow embedding, in Lean 4, of the plan service
(`service.ts`: `canonicalizePlan`, `updatePlan`, `cancelPlan`,
`autoCompletePlan`), the budget enforcer (`budgetEnforcer.ts`) and the
receipt pipeline (`receiptService.ts`).  The persistence layer (Supabase
tables `oops402_plans` and `oops402_plan_receipts`) is embedded as an
explicit state record `DB`; every stateful operation takes and returns a
`DB`.  JavaScript numbers are embedded as IEEE-754 binary64 values
modelled exactly by the rationals they denote (unreduced fractions of
machine integers, `Option Frac`, with `none` standing for NaN), and
`JSON.stringify` with an array replacer is embedded over an explicit
JSON value type.
-/

/-! ## JSON values and `JSON.stringify` with an array replacer -/

mutual
/-- A JSON value.  Object fields are kept in insertion order, mirroring
JavaScript objects; the element and field lists are their own mutual
inductives so that serialization is structural recursion (and therefore
evaluates by kernel reduction). -/
inductive Json where
  | null : Json
  | bool (b : Bool) : Json
  | num (n : Int) : Json
  | str (s : String) : Json
  | arr (elems : JsonList) : Json
  | obj (fields : JsonFields) : Json
inductive JsonList where
  | nil : JsonList
  | cons (hd : Json) (tl : JsonList) : JsonList
inductive JsonFields where
  | nil : JsonFields
  | cons (key : String) (val : Json) (tl : JsonFields) : JsonFields
end

deriving instance DecidableEq for Json, JsonList, JsonFields

/-- Build a `JsonList` from a list. -/
def jsonList : List Json → JsonList
  | [] => JsonList.nil
  | x :: xs => JsonList.cons x (jsonList xs)

/-- Build a `JsonFields` from an association list. -/
def jsonFields : List (String × Json) → JsonFields
  | [] => JsonFields.nil
  | (k, v) :: xs => JsonFields.cons k v (jsonFields xs)

/-- Hex digit for code points below 32, used by the JSON string escape. -/
def hexDigit (n : Nat) : Char :=
  if n < 10 then Char.ofNat (48 + n) else Char.ofNat (87 + n)

/-- JSON escape of one character, as produced by `JSON.stringify`. -/
def quoteChar (c : Char) : String :=
  if c = '"' then "\\\""
  else if c = '\\' then "\\\\"
  else if c = '\x08' then "\\b"
  else if c = '\x09' then "\\t"
  else if c = '\x0a' then "\\n"
  else if c = '\x0c' then "\\f"
  else if c = '\x0d' then "\\r"
  else if c.toNat < 32 then
    "\\u00" ++ String.mk [hexDigit (c.toNat / 16), hexDigit (c.toNat % 16)]
  else String.singleton c

/-- JSON string quoting, as produced by `JSON.stringify`. -/
def quoteString (s : String) : String :=
  "\"" ++ String.join (s.toList.map quoteChar) ++ "\""

/-- Association-list lookup (JavaScript object property access; property
names in one object are unique). -/
def assocFind (k : String) : List (String × String) → Option String
  | [] => none
  | (k', v) :: rest => if k' = k then some v else assocFind k rest

mutual
/-- `JSON.stringify(v, props)` with an array replacer `props`,
per ECMA-262 `SerializeJSONProperty`: the replacer array acts as a
property filter at EVERY object nesting level (a key is serialized iff it
occurs in `props`, in the order of `props`), while array elements are
always serialized.  This is the exact semantics of the second argument
`Object.keys(canonical).sort()` passed by `canonicalizePlan`. -/
def stringifyWith (props : List String) : Json → String
  | Json.null => "null"
  | Json.bool b => if b then "true" else "false"
  | Json.num n => toString n
  | Json.str s => quoteString s
  | Json.arr elems =>
      "[" ++ String.intercalate "," (stringifyList props elems) ++ "]"
  | Json.obj fields =>
      "\x7b" ++
        String.intercalate ","
          (props.filterMap fun k =>
            (assocFind k (stringifyFields props fields)).map fun v =>
              quoteString k ++ ":" ++ v) ++
        "\x7d"
/-- Serialize the elements of a JSON array (each element is serialized;
the replacer array never filters array elements). -/
def stringifyList (props : List String) : JsonList → List String
  | JsonList.nil => []
  | JsonList.cons hd tl => stringifyWith props hd :: stringifyList props tl
/-- Serialize the fields of a JSON object into an association list of
serialized values, to be selected and ordered by the replacer array. -/
def stringifyFields (props : List String) : JsonFields → List (String × String)
  | JsonFields.nil => []
  | JsonFields.cons k v tl => (k, stringifyWith props v) :: stringifyFields props tl
end

/-! ## Plan data model (`types.ts`) -/

/-- `PlanStatus` from `types.ts`. -/
inductive PlanStatus where
  | draft | approved | running | paused | completed | canceled | failed
deriving DecidableEq, Repr

/-- The status string stored in the database row. -/
def PlanStatus.toStr : PlanStatus → String
  | .draft => "draft"
  | .approved => "approved"
  | .running => "running"
  | .paused => "paused"
  | .completed => "completed"
  | .canceled => "canceled"
  | .failed => "failed"

/-- `tool: {method, url}` from `types.ts`. -/
structure Tool where
  method : String
  url : String
deriving DecidableEq, Repr

/-- `PlanStep` from `types.ts`.  Optional fields are `Option`;
`inputs?: Record<string, unknown>` is kept as a JSON object body. -/
structure PlanStep where
  id : String
  title : String
  tool : Tool
  inputs : Option JsonFields
  success_criteria : Option String
  estimated_cost_usdc : Option String
  max_cost_usdc : Option String
  fallback : Option String
  requires_evidence : Option Bool
deriving DecidableEq

/-- `BudgetLimits` from `types.ts`.  `per_tool_caps_usdc` is a
`Record<string, string>`, kept in insertion order as `Object.entries`
iterates it. -/
structure BudgetLimits where
  currency : String
  not_to_exceed_usdc : String
  approval_threshold_usdc : Option String
  per_tool_caps_usdc : Option (List (String × String))
  per_step_default_cap_usdc : Option String
deriving DecidableEq

/-- `ToolPolicy` from `types.ts`. -/
structure ToolPolicy where
  allowlist : List String
  denylist : Option (List String)
  require_allowlist : Bool
deriving DecidableEq

/-- `PlanScope` from `types.ts`. -/
structure PlanScope where
  assumptions : Option (List String)
  acceptance_criteria : Option (List String)
deriving DecidableEq

/-- `PlanSpec` from `types.ts`. -/
structure PlanSpec where
  scope : Option PlanScope
  steps : List PlanStep
  tool_policy : ToolPolicy
  budget : BudgetLimits
deriving DecidableEq

/-- `execution.progress` from `types.ts`. -/
structure Progress where
  completed_steps : List String
  failed_steps : List String
deriving DecidableEq, Repr

/-- `execution.spend` from `types.ts`. -/
structure Spend where
  total_usdc : String
  remaining_usdc : Option String
deriving DecidableEq, Repr

/-- `PlanExecution` from `types.ts`. -/
structure PlanExecution where
  active_step_id : Option String
  progress : Progress
  spend : Spend
deriving DecidableEq, Repr

/-- `PlanIntegrity` from `types.ts`. -/
structure PlanIntegrity where
  plan_hash : Option String
  approved_at : Option String
  approved_by : Option String
deriving DecidableEq, Repr

/-- `Plan` from `types.ts`.  `metadata: Record<string, unknown>` is a
JSON object body.  The `created_at`/`updated_at` timestamp columns are
not consulted by any of the operations embedded here and are omitted. -/
structure Plan where
  id : String
  owner_id : String
  workspace_id : Option String
  title : String
  objective : String
  status : PlanStatus
  spec : PlanSpec
  plan_hash : Option String
  execution : PlanExecution
  integrity : PlanIntegrity
  tags : List String
  metadata : JsonFields
deriving DecidableEq

/-- `PlanUpdate` from `types.ts`: every field optional. -/
structure PlanUpdate where
  title : Option String
  objective : Option String
  scope : Option PlanScope
  steps : Option (List PlanStep)
  tool_policy : Option ToolPolicy
  budget : Option BudgetLimits
  tags : Option (List String)
  metadata : Option JsonFields
deriving DecidableEq

/-! ## Canonicalization (`canonicalizePlan`, `service.ts`) -/

/-- Lexicographic comparison of character lists by code point (agrees
with the UTF-16 code-unit comparison of the JavaScript `<=` on the ASCII
strings this engine handles). -/
def charListLe : List Char → List Char → Bool
  | [], _ => true
  | _ :: _, [] => false
  | a :: as, b :: bs =>
    if a.toNat < b.toNat then true
    else if b.toNat < a.toNat then false
    else charListLe as bs

/-- String comparison used by the JavaScript default sort. -/
def strLe (a b : String) : Bool :=
  charListLe a.data b.data

/-- Insert into a sorted list of strings. -/
def insertSorted (x : String) : List String → List String
  | [] => [x]
  | y :: ys => if strLe x y then x :: y :: ys else y :: insertSorted x ys

/-- Sort a list of strings lexicographically; the result of the
JavaScript default `Array.prototype.sort` on an array of strings (the
code units agree on the ASCII identifiers and tags this engine uses). -/
def sortStrings (xs : List String) : List String :=
  xs.foldr insertSorted []

/-- JSON encoding of a `PlanScope` (key insertion order as in `types.ts`). -/
def scopeToJson (sc : PlanScope) : Json :=
  Json.obj (jsonFields
    ((match sc.assumptions with
      | some xs => [("assumptions", Json.arr (jsonList (xs.map Json.str)))]
      | none => []) ++
     (match sc.acceptance_criteria with
      | some xs => [("acceptance_criteria", Json.arr (jsonList (xs.map Json.str)))]
      | none => [])))

/-- JSON encoding of a `PlanStep` (key insertion order as in `types.ts`). -/
def stepToJson (s : PlanStep) : Json :=
  Json.obj (jsonFields
    ([("id", Json.str s.id), ("title", Json.str s.title),
      ("tool", Json.obj (jsonFields
        [("method", Json.str s.tool.method), ("url", Json.str s.tool.url)]))] ++
     (match s.inputs with | some fs => [("inputs", Json.obj fs)] | none => []) ++
     (match s.success_criteria with | some v => [("success_criteria", Json.str v)] | none => []) ++
     (match s.estimated_cost_usdc with | some v => [("estimated_cost_usdc", Json.str v)] | none => []) ++
     (match s.max_cost_usdc with | some v => [("max_cost_usdc", Json.str v)] | none => []) ++
     (match s.fallback with | some v => [("fallback", Json.str v)] | none => []) ++
     (match s.requires_evidence with | some v => [("requires_evidence", Json.bool v)] | none => [])))

/-- JSON encoding of a `ToolPolicy` (key insertion order as in `types.ts`). -/
def toolPolicyToJson (tp : ToolPolicy) : Json :=
  Json.obj (jsonFields
    ([("allowlist", Json.arr (jsonList (tp.allowlist.map Json.str)))] ++
     (match tp.denylist with
      | some xs => [("denylist", Json.arr (jsonList (xs.map Json.str)))]
      | none => []) ++
     [("require_allowlist", Json.bool tp.require_allowlist)]))

/-- JSON encoding of a `BudgetLimits` (key insertion order as in `types.ts`). -/
def budgetToJson (b : BudgetLimits) : Json :=
  Json.obj (jsonFields
    ([("currency", Json.str b.currency), ("not_to_exceed_usdc", Json.str b.not_to_exceed_usdc)] ++
     (match b.approval_threshold_usdc with | some v => [("approval_threshold_usdc", Json.str v)] | none => []) ++
     (match b.per_tool_caps_usdc with
      | some caps => [("per_tool_caps_usdc", Json.obj (jsonFields (caps.map fun kv => (kv.1, Json.str kv.2))))]
      | none => []) ++
     (match b.per_step_default_cap_usdc with
      | some v => [("per_step_default_cap_usdc", Json.str v)] | none => [])))

/-- JSON encoding of a `PlanSpec`; the key insertion order
`scope, steps, tool_policy, budget` is the order `createPlan` builds the
`spec` document with. -/
def specToJson (sp : PlanSpec) : Json :=
  Json.obj (jsonFields
    [("scope", match sp.scope with | some sc => scopeToJson sc | none => Json.obj JsonFields.nil),
     ("steps", Json.arr (jsonList (sp.steps.map stepToJson))),
     ("tool_policy", toolPolicyToJson sp.tool_policy),
     ("budget", budgetToJson sp.budget)])

/-- `canonicalizePlan` (`service.ts`): builds the object
`{title, objective, spec, tags: plan.tags.sort(), metadata}` and returns
`JSON.stringify(canonical, Object.keys(canonical).sort())`.  The second
argument of `JSON.stringify` is an array replacer, i.e. a property
filter applied at every nesting level (see `stringifyWith`). -/
def canonicalizePlan (plan : Plan) : String :=
  let canonical : List (String × Json) :=
    [("title", Json.str plan.title),
     ("objective", Json.str plan.objective),
     ("spec", specToJson plan.spec),
     ("tags", Json.arr (jsonList ((sortStrings plan.tags).map Json.str))),
     ("metadata", Json.obj plan.metadata)]
  stringifyWith (sortStrings (canonical.map Prod.fst)) (Json.obj (jsonFields canonical))


/-! ## JavaScript numbers: exact model of IEEE-754 binary64

`parseFloat`, `+`, `-`, `>` and `toFixed(6)` on JavaScript numbers are
embedded exactly.  A finite binary64 value is represented by the exact
rational it denotes, as a fraction of machine integers kept unreduced
(`Frac`, with positive denominator by construction) so that every
operation is plain `Int` arithmetic and kernel-computable; a NaN is
`none` in `Option Frac`.  Rounding is IEEE round-to-nearest,
ties-to-even, on an unbounded exponent range (the engine's money amounts
are far from both overflow and the subnormal range, where this model
coincides with binary64). -/

/-- An exact rational as an unreduced fraction.  Every constructor used
in this file keeps `den > 0`. -/
structure Frac where
  num : Int
  den : Int
deriving Repr, DecidableEq

/-- Embed an integer. -/
def Frac.ofInt (n : Int) : Frac := ⟨n, 1⟩

/-- Exact addition. -/
def Frac.add (a b : Frac) : Frac := ⟨a.num * b.den + b.num * a.den, a.den * b.den⟩

/-- Exact subtraction. -/
def Frac.sub (a b : Frac) : Frac := ⟨a.num * b.den - b.num * a.den, a.den * b.den⟩

/-- Exact multiplication. -/
def Frac.mul (a b : Frac) : Frac := ⟨a.num * b.num, a.den * b.den⟩

/-- Negation. -/
def Frac.neg (a : Frac) : Frac := ⟨-a.num, a.den⟩

/-- Absolute value. -/
def Frac.abs (a : Frac) : Frac := ⟨|a.num|, a.den⟩

/-- Value comparison `a < b` (cross multiplication; denominators are
positive). -/
def Frac.lt (a b : Frac) : Bool := decide (a.num * b.den < b.num * a.den)

/-- Value comparison `a ≤ b`. -/
def Frac.le (a b : Frac) : Bool := decide (a.num * b.den ≤ b.num * a.den)

/-- `⌊a⌋` (floor division; the denominator is positive). -/
def Frac.floor (a : Frac) : Int := Int.fdiv a.num a.den

/-- `⌈a⌉`. -/
def Frac.ceil (a : Frac) : Int := -Int.fdiv (-a.num) a.den

/-- The rational value of a `Frac`, for stating exactness properties. -/
def Frac.val (a : Frac) : ℚ := (a.num : ℚ) / (a.den : ℚ)

/-- Fuel-driven `⌊log₂ n⌋` (`0` for `n ≤ 1`); structural recursion so
that it evaluates by kernel reduction. -/
def log2floorAux : Nat → Nat → Nat
  | 0, _ => 0
  | fuel + 1, n => if n ≤ 1 then 0 else log2floorAux fuel (n / 2) + 1

/-- `⌊log₂ n⌋` for `n ≥ 1`. -/
def log2floor (n : Nat) : Nat := log2floorAux n n

/-- `⌈log₂ n⌉` for `n ≥ 1`. -/
def log2ceil (n : Nat) : Nat :=
  if 2 ^ log2floor n = n then log2floor n else log2floor n + 1

/-- `⌊log₂ a⌋` for a positive fraction `a`. -/
def qlog2 (a : Frac) : Int :=
  if (Frac.ofInt 1).le a then (log2floor a.floor.toNat : Int)
  else -(log2ceil (Frac.ceil ⟨a.den, a.num⟩).toNat : Int)

/-- `2 ^ e` as a fraction, for an integer exponent. -/
def pow2frac (e : Int) : Frac :=
  if 0 ≤ e then ⟨(2 : Int) ^ e.toNat, 1⟩ else ⟨1, (2 : Int) ^ (-e).toNat⟩

/-- Round a fraction to the nearest integer, ties to even. -/
def roundHalfEven (q : Frac) : Int :=
  let f := q.floor
  let r := q.sub (Frac.ofInt f)
  if r.lt ⟨1, 2⟩ then f
  else if Frac.lt ⟨1, 2⟩ r then f + 1
  else if f % 2 = 0 then f else f + 1

/-- Round an exact value to the nearest binary64 value (round-to-nearest,
ties-to-even): the significand is normalized into `[2^52, 2^53)` and
rounded. -/
def roundB64 (q : Frac) : Frac :=
  if q.num = 0 then ⟨0, 1⟩
  else
    let a := q.abs
    let e : Int := qlog2 a - 52
    let n : Int := roundHalfEven (a.mul (pow2frac (-e)))
    let m := (Frac.ofInt n).mul (pow2frac e)
    if q.num < 0 then m.neg else m

/-- Exact rational value denoted by a decimal string, with `parseFloat`
front-end behaviour on the engine's amount strings: leading whitespace
skipped, optional sign, then the longest prefix of the form
`digits[.digits]`; `none` (NaN) when no digit is found.  (The exponent
and `Infinity` forms of `parseFloat` never occur in this codebase's
decimal amount domain and are not modelled.) -/
def parseFloatQ (s : String) : Option Frac :=
  let cs := s.toList.dropWhile fun c => c = ' ' || c = '\t' || c = '\n' || c = '\r'
  let signed : Bool × List Char :=
    match cs with
    | '-' :: rest => (true, rest)
    | '+' :: rest => (false, rest)
    | _ => (false, cs)
  let intPart := signed.2.takeWhile Char.isDigit
  let afterInt := signed.2.dropWhile Char.isDigit
  let fracPart :=
    match afterInt with
    | '.' :: rest => rest.takeWhile Char.isDigit
    | _ => []
  if intPart.isEmpty && fracPart.isEmpty then none
  else
    let digitsVal : List Char → Nat := fun ds => ds.foldl (fun a c => a * 10 + (c.toNat - 48)) 0
    let mag : Frac :=
      ⟨(digitsVal intPart : Int) * (10 : Int) ^ fracPart.length + (digitsVal fracPart : Int),
       (10 : Int) ^ fracPart.length⟩
    some (if signed.1 then mag.neg else mag)

/-- `parseFloat(s)` as a binary64 value (`none` = NaN). -/
def parseF (s : String) : Option Frac :=
  (parseFloatQ s).map roundB64

/-- Binary64 addition: the exact sum, rounded (NaN propagates). -/
def faddO : Option Frac → Option Frac → Option Frac
  | some a, some b => some (roundB64 (a.add b))
  | _, _ => none

/-- Binary64 subtraction: the exact difference, rounded (NaN propagates). -/
def fsubO : Option Frac → Option Frac → Option Frac
  | some a, some b => some (roundB64 (a.sub b))
  | _, _ => none

/-- JavaScript `>` on numbers: any comparison against NaN is false. -/
def fgt : Option Frac → Option Frac → Bool
  | some a, some b => b.lt a
  | _, _ => false

/-- JavaScript `>` with a non-NaN number on the left. -/
def gtF (a : Frac) (b : Option Frac) : Bool :=
  fgt (some a) b

/-- Left-pad a string with zeros to the given length. -/
def padZeros (s : String) (len : Nat) : String :=
  String.mk (List.replicate (len - s.length) '0') ++ s

/-- Format a number of micro-units as a fixed-point string with 6
fractional digits. -/
def fmtMicro (m : Nat) : String :=
  toString (m / 1000000) ++ "." ++ padZeros (toString (m % 1000000)) 6

/-- `x.toFixed(6)` (ECMA-262 `Number.prototype.toFixed`): the integer
`n` with `n / 10^6` closest to `x`, ties to the larger `n`; NaN prints
"NaN". -/
def toFixed6 : Option Frac → String
  | none => "NaN"
  | some q =>
    let n : Int := ((q.mul (Frac.ofInt 1000000)).add ⟨1, 2⟩).floor
    if n < 0 then "-" ++ fmtMicro (-n).toNat else fmtMicro n.toNat

/-! ## Error taxonomy (`errors.ts`) -/

/-- The typed plan errors thrown by the engine (`errors.ts`), carrying
the same string payloads as the TypeScript constructors.  `invalidAmount`
stands for the plain `Error("Invalid receipt amount: ...")` thrown on a
NaN receipt amount, and `internal` for the generic wrapped storage
error. -/
inductive PlanErr where
  | notFound (planId : String)
  | locked (planId : String) (currentStatus : String)
  | invalidTransition (planId : String) (fromStatus : String) (toStatus : String)
  | budgetExceeded (planId : String) (attemptedAmount : String) (currentTotal : String) (budgetLimit : String)
  | toolNotAllowed (planId : String) (toolUrl : String)
  | approvalRequired (planId : String) (stepId : String) (amount : String) (threshold : String)
  | stepNotFound (planId : String) (stepId : String)
  | invalidAmount (amount : String)
  | internal (msg : String)
deriving DecidableEq, Repr

deriving instance DecidableEq for Except

/-! ## Budget enforcer (`budgetEnforcer.ts`) -/

/-- The first character list is a prefix of the second. -/
def charListPrefix : List Char → List Char → Bool
  | [], _ => true
  | _ :: _, [] => false
  | a :: as, b :: bs => a = b && charListPrefix as bs

/-- `matchesPattern` (`budgetEnforcer.ts`): exact string equality, or a
trailing-`*` wildcard matching any URL with the literal prefix before
the `*`. -/
def matchesPattern (url pat : String) : Bool :=
  if url = pat then true
  else if pat.data.getLast? = some (Char.ofNat 42) then
    charListPrefix pat.data.dropLast url.data
  else false

/-- JavaScript truthiness of an optional string field: `undefined` and
the empty string are falsy. -/
def truthy : Option String → Bool
  | none => false
  | some s => !(s = "")

/-- `matchToolAllowlist` (`budgetEnforcer.ts`): skip unless
`require_allowlist`; a denylist hit rejects; otherwise the URL must
match some allowlist pattern.  The thrown `ToolNotAllowedError` carries
an empty plan id, exactly as in the source. -/
def matchToolAllowlist (toolPolicy : ToolPolicy) (toolUrl : String) : Except PlanErr Unit :=
  if !toolPolicy.require_allowlist then .ok ()
  else if (toolPolicy.denylist.getD []).any (fun pat => matchesPattern toolUrl pat) then
    .error (.toolNotAllowed "" toolUrl)
  else if toolPolicy.allowlist.any (fun pat => matchesPattern toolUrl pat) then .ok ()
  else .error (.toolNotAllowed "" toolUrl)

/-- `cost: {currency, amount}` of a receipt. -/
structure Cost where
  currency : String
  amount : String
deriving DecidableEq, Repr

/-- `x402` block of a receipt. -/
structure X402 where
  payment_reference : Option String
  request_id : Option String
  response_status : Option Int
deriving DecidableEq, Repr

/-- `output` block of a receipt. -/
structure OutputRef where
  type : Option String
  ref : Option String
  summary : Option String
  cid : Option String
deriving DecidableEq, Repr

/-- `ReceiptInput` from `types.ts`. -/
structure ReceiptInput where
  step_id : String
  tool : Tool
  cost : Cost
  x402 : X402
  output : Option OutputRef
  notes : Option String
deriving DecidableEq, Repr

/-- `checkPerRequestLimit` (`budgetEnforcer.ts`): a NaN receipt amount
throws; then the step-specific `max_cost_usdc` cap is checked, then,
independently, the plan-wide `per_step_default_cap_usdc`.  A cap that is
`undefined` or `""` is skipped (JavaScript truthiness); a cap that
parses to NaN never triggers (`>` against NaN is false). -/
def checkPerRequestLimit (budget : BudgetLimits) (step : PlanStep) (receipt : ReceiptInput) :
    Except PlanErr Unit :=
  match parseF receipt.cost.amount with
  | none => .error (.invalidAmount receipt.cost.amount)
  | some receiptAmount =>
    if truthy step.max_cost_usdc &&
        gtF receiptAmount (parseF (step.max_cost_usdc.getD "")) then
      .error (.budgetExceeded "" receipt.cost.amount "0" (step.max_cost_usdc.getD ""))
    else if truthy budget.per_step_default_cap_usdc &&
        gtF receiptAmount (parseF (budget.per_step_default_cap_usdc.getD "")) then
      .error (.budgetExceeded "" receipt.cost.amount "0" (budget.per_step_default_cap_usdc.getD ""))
    else .ok ()

/-- Walk `Object.entries(per_tool_caps_usdc)` in insertion order; the
first matching pattern is the only one evaluated. -/
def checkCapsList (receiptAmount : Frac) (receipt : ReceiptInput) :
    List (String × String) → Except PlanErr Unit
  | [] => .ok ()
  | (pat, capStr) :: rest =>
    if matchesPattern receipt.tool.url pat then
      if gtF receiptAmount (parseF capStr) then
        .error (.budgetExceeded "" receipt.cost.amount "0" capStr)
      else .ok ()
    else checkCapsList receiptAmount receipt rest

/-- `checkPerToolLimit` (`budgetEnforcer.ts`). -/
def checkPerToolLimit (budget : BudgetLimits) (receipt : ReceiptInput) : Except PlanErr Unit :=
  match budget.per_tool_caps_usdc with
  | none => .ok ()
  | some caps =>
    match parseF receipt.cost.amount with
    | none => .error (.invalidAmount receipt.cost.amount)
    | some receiptAmount => checkCapsList receiptAmount receipt caps

/-- `checkTotalBudget` (`budgetEnforcer.ts`):
`parseFloat(spend.total_usdc || '0') + amount > parseFloat(not_to_exceed_usdc)`
rejects; comparisons involving NaN are false. -/
def checkTotalBudget (plan : Plan) (receipt : ReceiptInput) : Except PlanErr Unit :=
  match parseF receipt.cost.amount with
  | none => .error (.invalidAmount receipt.cost.amount)
  | some receiptAmount =>
    let currentTotal :=
      parseF (if plan.execution.spend.total_usdc = "" then "0" else plan.execution.spend.total_usdc)
    let budgetLimit := parseF plan.spec.budget.not_to_exceed_usdc
    if fgt (faddO currentTotal (some receiptAmount)) budgetLimit then
      .error (.budgetExceeded plan.id receipt.cost.amount plan.execution.spend.total_usdc
        plan.spec.budget.not_to_exceed_usdc)
    else .ok ()

/-- `checkApprovalThreshold` (`budgetEnforcer.ts`). -/
def checkApprovalThreshold (budget : BudgetLimits) (receipt : ReceiptInput) : Except PlanErr Unit :=
  if !truthy budget.approval_threshold_usdc then .ok ()
  else
    match parseF receipt.cost.amount with
    | none => .error (.invalidAmount receipt.cost.amount)
    | some receiptAmount =>
      if gtF receiptAmount (parseF (budget.approval_threshold_usdc.getD "")) then
        .error (.approvalRequired "" receipt.step_id receipt.cost.amount
          (budget.approval_threshold_usdc.getD ""))
      else .ok ()

/-- `validateBudgetRules` (`budgetEnforcer.ts`): tool allowlist, step
existence, per-step caps, per-tool cap, total budget, approval
threshold, in this order, failing on the first violated check. -/
def validateBudgetRules (plan : Plan) (receipt : ReceiptInput) : Except PlanErr Unit := do
  matchToolAllowlist plan.spec.tool_policy receipt.tool.url
  match plan.spec.steps.find? (fun s => s.id = receipt.step_id) with
  | none => .error (.stepNotFound plan.id receipt.step_id)
  | some step => do
    checkPerRequestLimit plan.spec.budget step receipt
    checkPerToolLimit plan.spec.budget receipt
    checkTotalBudget plan receipt
    checkApprovalThreshold plan.spec.budget receipt

/-! ## Persistence model

The two Supabase tables the engine touches are embedded as an explicit
state record.  `.single()` returns a row only when the filter matches
exactly one row (PostgREST error `PGRST116` otherwise, which the service
code maps to "not found"). -/

/-- A stored receipt row (`oops402_plan_receipts`).  `id` models the
generated row id, `created_at` the insertion timestamp (a counter). -/
structure Receipt where
  id : String
  plan_id : String
  step_id : String
  tool : Tool
  cost : Cost
  x402 : X402
  output : Option OutputRef
  notes : Option String
  created_at : Nat
deriving DecidableEq, Repr

/-- The persistent state: the plans table, the receipts table, the next
generated receipt id and the clock. -/
structure DB where
  plans : List Plan
  receipts : List Receipt
  nextReceiptId : Nat
  now : Nat
deriving DecidableEq

/-- `getPlan` (`service.ts`): select by `id` and `owner_id` with
`.single()`; `PlanNotFoundError` when this does not yield exactly one
row. -/
def getPlan (db : DB) (planId userId : String) : Option Plan :=
  match db.plans.filter (fun p => p.id = planId && p.owner_id = userId) with
  | [p] => some p
  | _ => none

/-- `getReceiptByPaymentReference` (`receiptService.ts`): select by
`plan_id`, `step_id` and `x402->>payment_reference` with `.single()`;
any error (including "0 or several rows") yields `null`. -/
def getReceiptByPaymentReference (db : DB) (planId stepId paymentReference : String) :
    Option Receipt :=
  match db.receipts.filter (fun r =>
      r.plan_id = planId && r.step_id = stepId &&
      r.x402.payment_reference = some paymentReference) with
  | [r] => some r
  | _ => none

/-- The `unique_plan_receipt` partial unique index of the schema:
`(plan_id, step_id, x402->>'payment_reference') WHERE payment_reference
IS NOT NULL`.  Insertion collides exactly when the new row carries a
payment reference and a stored row has the same key triple. -/
def receiptInsertCollides (db : DB) (planId : String) (receiptInput : ReceiptInput) : Bool :=
  receiptInput.x402.payment_reference.isSome &&
    db.receipts.any (fun r =>
      r.plan_id = planId && r.step_id = receiptInput.step_id &&
      r.x402.payment_reference = receiptInput.x402.payment_reference)

/-- The receipt row built by the `insert` in `createReceipt`
(`receiptService.ts`): field for field from the input, `output`/`notes`
defaulting to `null`. -/
def newReceiptRow (db : DB) (planId : String) (receiptInput : ReceiptInput) : Receipt :=
  { id := toString db.nextReceiptId
    plan_id := planId
    step_id := receiptInput.step_id
    tool := receiptInput.tool
    cost := receiptInput.cost
    x402 := receiptInput.x402
    output := receiptInput.output
    notes := receiptInput.notes
    created_at := db.now }

/-- Insert a receipt row, or report the unique-constraint violation
(PostgreSQL error `23505`). -/
def insertReceipt (db : DB) (planId : String) (receiptInput : ReceiptInput) :
    Option (Receipt × DB) :=
  if receiptInsertCollides db planId receiptInput then none
  else
    let row := newReceiptRow db planId receiptInput
    some (row,
      { db with
        receipts := db.receipts ++ [row]
        nextReceiptId := db.nextReceiptId + 1
        now := db.now + 1 })

/-- `updatePlanSpend` (`receiptService.ts`): `UPDATE oops402_plans SET
execution = {active_step_id: null, progress: {completed_steps: [],
failed_steps: []}, spend: {total_usdc, remaining_usdc}} WHERE id =
planId`.  The written `execution` document is exactly the literal in the
source: `active_step_id` is set to `null` and both progress lists to
`[]`, whatever they were before. -/
def updatePlanSpend (db : DB) (planId totalUsdc remainingUsdc : String) : DB :=
  { db with
    plans := db.plans.map fun p =>
      if p.id = planId then
        { p with
          execution :=
            { active_step_id := none
              progress := { completed_steps := [], failed_steps := [] }
              spend := { total_usdc := totalUsdc, remaining_usdc := some remainingUsdc } } }
      else p }

/-! ## Plan store operations (`service.ts`) -/

/-- `updatePlan` (`service.ts`): only `draft` plans may be updated
(`PlanLockedError` otherwise).  The source builds one `updateData.spec`
value: each of the `scope`/`steps`/`tool_policy`/`budget` branches
assigns `updateData.spec = { ...plan.spec, <field> }`, spreading the
ORIGINAL `plan.spec` — a later branch therefore overwrites the object a
former branch assigned.  A `budget` update also rewrites
`execution.spend.remaining_usdc` to the new `not_to_exceed_usdc`. -/
def updatePlan (db : DB) (planId userId : String) (updates : PlanUpdate) :
    Except PlanErr Plan × DB :=
  match getPlan db planId userId with
  | none => (.error (.notFound planId), db)
  | some plan =>
    if plan.status ≠ .draft then (.error (.locked planId plan.status.toStr), db)
    else
      let spec1 : Option PlanSpec :=
        match updates.scope with
        | some sc => some { plan.spec with scope := some sc }
        | none => none
      let spec2 : Option PlanSpec :=
        match updates.steps with
        | some st => some { plan.spec with steps := st }
        | none => spec1
      let spec3 : Option PlanSpec :=
        match updates.tool_policy with
        | some tp => some { plan.spec with tool_policy := tp }
        | none => spec2
      let spec4 : Option PlanSpec :=
        match updates.budget with
        | some b => some { plan.spec with budget := b }
        | none => spec3
      let exec4 : Option PlanExecution :=
        match updates.budget with
        | some b =>
          some { plan.execution with
                 spend := { plan.execution.spend with remaining_usdc := some b.not_to_exceed_usdc } }
        | none => none
      let updated : Plan :=
        { plan with
          title := updates.title.getD plan.title
          objective := updates.objective.getD plan.objective
          spec := spec4.getD plan.spec
          execution := exec4.getD plan.execution
          tags := updates.tags.getD plan.tags
          metadata := updates.metadata.getD plan.metadata }
      (.ok updated,
       { db with plans := db.plans.map fun p => if p.id = planId && p.owner_id = userId then updated else p })

/-- `cancelPlan` (`service.ts`): statuses outside
`{approved, running, paused}` are rejected with
`InvalidTransitionError` BEFORE the `status === 'canceled'` idempotency
check is reached (the source performs the checks in this order). -/
def cancelPlan (db : DB) (planId userId : String) : Except PlanErr Plan × DB :=
  match getPlan db planId userId with
  | none => (.error (.notFound planId), db)
  | some plan =>
    if !([PlanStatus.approved, PlanStatus.running, PlanStatus.paused].contains plan.status) then
      (.error (.invalidTransition planId plan.status.toStr "canceled"), db)
    else if plan.status = .canceled then (.ok plan, db)
    else
      let updated := { plan with status := PlanStatus.canceled }
      (.ok updated,
       { db with plans := db.plans.map fun p => if p.id = planId && p.owner_id = userId then updated else p })

/-- `autoCompletePlan` (`service.ts`): load the plan by id (no owner
scope), no-op unless `running` or `paused`; collect the `step_id`s of
the plan's receipts and, when every step of `spec.steps` has at least
one receipt (vacuously true for an empty step list), set `status =
'completed'`. -/
def autoCompletePlan (db : DB) (planId : String) : Option Plan × DB :=
  match db.plans.filter (fun p => p.id = planId) with
  | [plan] =>
    if plan.status ≠ .running && plan.status ≠ .paused then (none, db)
    else
      let receiptStepIds := (db.receipts.filter (fun r => r.plan_id = planId)).map (fun r => r.step_id)
      if plan.spec.steps.all (fun s => receiptStepIds.contains s.id) then
        let updated := { plan with status := PlanStatus.completed }
        (some updated, { db with plans := db.plans.map fun p => if p.id = planId then updated else p })
      else (none, db)
  | _ => (none, db)

/-- `checkPlanCompletion` (`receiptService.ts`): invoke
`autoCompletePlan`, swallowing its outcome (best effort). -/
def checkPlanCompletion (db : DB) (planId : String) : DB :=
  (autoCompletePlan db planId).2

/-! ## Receipt pipeline (`createReceipt`, `receiptService.ts`) -/

/-- The idempotency pre-check of `createReceipt`: performed only when
`receiptInput.x402?.payment_reference` is truthy. -/
def lookupExistingReceipt (db : DB) (planId : String) (receiptInput : ReceiptInput) :
    Option Receipt :=
  if truthy receiptInput.x402.payment_reference then
    getReceiptByPaymentReference db planId receiptInput.step_id
      (receiptInput.x402.payment_reference.getD "")
  else none

/-- `createReceipt` (`receiptService.ts`): load the plan (ownership
enforced), return an existing receipt for the same
`(plan, step, payment_reference)` unchanged, otherwise validate the
budget rules, insert the receipt row (a `23505` unique-constraint
collision re-reads and returns the existing row), then best-effort
update the plan's spend and run the auto-completion check.  The result
pairs the outcome with the state after the call. -/
def createReceipt (db : DB) (planId userId : String) (receiptInput : ReceiptInput) :
    Except PlanErr Receipt × DB :=
  match getPlan db planId userId with
  | none => (.error (.notFound planId), db)
  | some plan =>
    match lookupExistingReceipt db planId receiptInput with
    | some existing => (.ok existing, db)
    | none =>
      match validateBudgetRules plan receiptInput with
      | .error e => (.error e, db)
      | .ok () =>
        let currentSpend :=
          parseF (if plan.execution.spend.total_usdc = "" then "0"
                  else plan.execution.spend.total_usdc)
        let receiptAmount := parseF receiptInput.cost.amount
        let newTotal := toFixed6 (faddO currentSpend receiptAmount)
        let budgetLimit := parseF plan.spec.budget.not_to_exceed_usdc
        let remaining := toFixed6 (fsubO budgetLimit (parseF newTotal))
        match insertReceipt db planId receiptInput with
        | none =>
          match lookupExistingReceipt db planId receiptInput with
          | some existing => (.ok existing, db)
          | none => (.error (.internal "Failed to create receipt"), db)
        | some (row, db1) =>
          let db2 := updatePlanSpend db1 planId newTotal remaining
          let db3 := checkPlanCompletion db2 planId
          (.ok row, db3)

/-! ## Concrete fixtures

A small running plan owned by `u1`, with one step `s1` behind an
allowlist, a step cap of `0.400000`, a plan-wide per-step default cap of
`0.300000` and a total budget of `1.000000`; its execution state carries
an informational `active_step_id` and a non-empty progress list. -/

/-- The declared tool of the fixture step. -/
def baseTool : Tool := { method := "GET", url := "https://api.example.com/data" }

/-- Fixture step `s1`. -/
def baseStep : PlanStep :=
  { id := "s1"
    title := "step one"
    tool := baseTool
    inputs := none
    success_criteria := none
    estimated_cost_usdc := none
    max_cost_usdc := some "0.400000"
    fallback := none
    requires_evidence := none }

/-- Fixture budget. -/
def baseBudget : BudgetLimits :=
  { currency := "USDC"
    not_to_exceed_usdc := "1.000000"
    approval_threshold_usdc := none
    per_tool_caps_usdc := none
    per_step_default_cap_usdc := some "0.300000" }

/-- Fixture tool policy: allowlist required. -/
def basePolicy : ToolPolicy :=
  { allowlist := ["https://api.example.com/*"]
    denylist := none
    require_allowlist := true }

/-- Fixture spec. -/
def baseSpec : PlanSpec :=
  { scope := none
    steps := [baseStep]
    tool_policy := basePolicy
    budget := baseBudget }

/-- Fixture plan `p1`, running, owned by `u1`. -/
def basePlan : Plan :=
  { id := "p1"
    owner_id := "u1"
    workspace_id := none
    title := "t"
    objective := "o"
    status := .running
    spec := baseSpec
    plan_hash := none
    execution :=
      { active_step_id := some "s1"
        progress := { completed_steps := ["s0"], failed_steps := [] }
        spend := { total_usdc := "0.00", remaining_usdc := some "1.000000" } }
    integrity := { plan_hash := none, approved_at := none, approved_by := none }
    tags := []
    metadata := JsonFields.nil }

/-- Fixture state: the plan and no receipts. -/
def baseDb : DB := { plans := [basePlan], receipts := [], nextReceiptId := 0, now := 0 }

/-- Fixture receipt input for step `s1` with a payment reference. -/
def baseReceiptInput : ReceiptInput :=
  { step_id := "s1"
    tool := baseTool
    cost := { currency := "USDC", amount := "0.250000" }
    x402 := { payment_reference := some "ref1", request_id := none, response_status := none }
    output := none
    notes := none }

/-! ## C1 — canonicalization -/

/-- The same plan with a different `spec` (a different total budget). -/
def c1PlanB : Plan :=
  { basePlan with spec := { baseSpec with budget := { baseBudget with not_to_exceed_usdc := "9.000000" } } }

/-- Claim C1: `canonicalizePlan` is claimed to serialize
`{title, objective, spec, tags, metadata}` with sorted keys at every
nesting level, so that the canonical string includes the full nested
`spec` content and differs for plans whose `spec` differs.  In fact the
sorted key array passed as `JSON.stringify`'s second argument is an
array REPLACER, i.e. a property filter applied at every nesting level:
none of `scope`/`steps`/`tool_policy`/`budget` is in that array, so the
entire `spec` body is dropped and serialized as `\x7b\x7d`.  Two plans
that differ only in `spec` canonicalize (and therefore hash) to the very
same string. -/
theorem C1_canonicalizePlan_drops_spec :
    basePlan.spec.budget.not_to_exceed_usdc ≠ c1PlanB.spec.budget.not_to_exceed_usdc ∧
    canonicalizePlan basePlan = canonicalizePlan c1PlanB ∧
    canonicalizePlan basePlan =
      "\x7b\"metadata\":\x7b\x7d,\"objective\":\"o\",\"spec\":\x7b\x7d,\"tags\":[],\"title\":\"t\"\x7d" := by
  refine ⟨by decide, by decide, by decide⟩

/-! ## C2 — createReceipt and the execution frame -/

/-- The receipt row `createReceipt baseDb "p1" "u1" baseReceiptInput`
persists. -/
def c2Row : Receipt :=
  { id := "0"
    plan_id := "p1"
    step_id := "s1"
    tool := baseTool
    cost := { currency := "USDC", amount := "0.250000" }
    x402 := { payment_reference := some "ref1", request_id := none, response_status := none }
    output := none
    notes := none
    created_at := 0 }

/-- Claim C2: a successful `createReceipt` is claimed to change the
persisted `execution` only in `spend`, keeping `active_step_id` and
`progress`.  In fact `updatePlanSpend` writes a whole `execution`
document with `active_step_id: null` and empty progress lists (despite
its own "Preserve existing, we'll update spend only" comment): after a
successful call on a plan with `active_step_id = "s1"` and
`completed_steps = ["s0"]`, both are wiped. -/
theorem C2_createReceipt_clobbers_execution :
    basePlan.execution.active_step_id = some "s1" ∧
    basePlan.execution.progress.completed_steps = ["s0"] ∧
    (createReceipt baseDb "p1" "u1" baseReceiptInput).1 = .ok c2Row ∧
    ((createReceipt baseDb "p1" "u1" baseReceiptInput).2.plans.map fun p =>
      p.execution.active_step_id) = [none] ∧
    ((createReceipt baseDb "p1" "u1" baseReceiptInput).2.plans.map fun p =>
      p.execution.progress.completed_steps) = [[]] ∧
    ((createReceipt baseDb "p1" "u1" baseReceiptInput).2.plans.map fun p =>
      p.execution.spend.total_usdc) = ["0.250000"] := by
  refine ⟨rfl, rfl, by decide, by decide, by decide, by decide⟩

/-! ## C3 — cancelPlan on a canceled plan -/

/-- State holding the fixture plan already canceled. -/
def c3Db : DB := { baseDb with plans := [{ basePlan with status := .canceled }] }

/-- Claim C3: `cancelPlan` is claimed to be idempotent on a canceled
plan, raising `InvalidTransition` only for statuses outside
`{approved, running, paused, canceled}`.  In fact the allowed-status
gate `['approved', 'running', 'paused']` is checked BEFORE the
`status === 'canceled'` idempotency return, so a canceled plan raises
`InvalidTransitionError` and the idempotency branch is dead code. -/
theorem C3_cancelPlan_canceled_raises :
    ((c3Db.plans.map fun p => p.status) = [PlanStatus.canceled]) ∧
    (cancelPlan c3Db "p1" "u1").1 = .error (.invalidTransition "p1" "canceled" "canceled") ∧
    (cancelPlan c3Db "p1" "u1").2 = c3Db := by
  refine ⟨rfl, by decide, by decide⟩

/-! ## C4 — updatePlan with several spec fields -/

/-- A draft copy of the fixture plan. -/
def c4Db : DB := { baseDb with plans := [{ basePlan with status := .draft }] }

/-- New scope provided by the patch. -/
def c4NewScope : PlanScope := { assumptions := some ["a1"], acceptance_criteria := none }

/-- New steps provided by the same patch. -/
def c4NewSteps : List PlanStep := [{ baseStep with id := "s9" }]

/-- A patch providing `scope` and `steps` together. -/
def c4Update : PlanUpdate :=
  { title := none
    objective := none
    scope := some c4NewScope
    steps := some c4NewSteps
    tool_policy := none
    budget := none
    tags := none
    metadata := none }

/-- Claim C4: when a draft-plan patch provides several of
`scope`/`steps`/`tool_policy`/`budget` at once, each provided field is
claimed to be replaced, none being lost.  In fact every branch assigns
`updateData.spec = { ...plan.spec, <field> }` from the ORIGINAL
`plan.spec`, so a later branch discards the earlier branch's
replacement: patching `scope` and `steps` together stores the new steps
but the OLD scope. -/
theorem C4_updatePlan_drops_scope_update :
    c4Update.scope = some c4NewScope ∧
    c4Update.steps = some c4NewSteps ∧
    ((updatePlan c4Db "p1" "u1" c4Update).1.map fun p =>
      (p.spec.scope, p.spec.steps.map PlanStep.id)) = .ok (none, ["s9"]) := by
  refine ⟨rfl, rfl, by decide⟩

/-! ## C5 — decimal versus binary64 arithmetic -/

/-- Plan for the rounding counterexample: spend total `0.100000`,
budget limit `0.300000`. -/
def c5Plan : Plan :=
  { basePlan with
    spec := { baseSpec with
              budget := { baseBudget with
                          not_to_exceed_usdc := "0.300000"
                          per_step_default_cap_usdc := none } }
    execution :=
      { basePlan.execution with
        spend := { total_usdc := "0.100000", remaining_usdc := some "0.200000" } } }

/-- Receipt of `0.200000` against `c5Plan`. -/
def c5Receipt : ReceiptInput :=
  { baseReceiptInput with cost := { currency := "USDC", amount := "0.200000" } }

/-- The comparison the claim asserts, written from the specification's
words ("exact base-10 decimal fixed-point arithmetic ... on decimal
strings"): the exact decimal value of the current total plus the exact
decimal value of the amount, compared against the exact decimal value of
the limit, with no rounding anywhere.  This is the refinement target the
code's `checkTotalBudget` is compared with. -/
def specDecimalWithinLimit (total amount limit : String) : Bool :=
  match parseFloatQ total, parseFloatQ amount, parseFloatQ limit with
  | some t, some a, some l => (t.add a).le l
  | _, _, _ => false

/-- Counterexample to claim C5: the code computes
`parseFloat("0.100000") + parseFloat("0.200000") > parseFloat("0.300000")`
in binary64, where `0.1 + 0.2 = 0.30000000000000004 > 0.3`, and throws
`BudgetExceeded` — while exact 6-digit decimal arithmetic has
`0.100000 + 0.200000 = 0.300000 ≤ 0.300000` and would accept.  The
comparisons are binary floating point, not exact decimal, and do carry
binary rounding error on 6-decimal-digit amounts. -/
theorem C5_counterexample_binary_rounding :
    checkTotalBudget c5Plan c5Receipt =
      .error (.budgetExceeded "p1" "0.200000" "0.100000" "0.300000") ∧
    specDecimalWithinLimit "0.100000" "0.200000" "0.300000" = true := by
  refine ⟨by decide, by decide⟩

/-- Claim C5 as amended: the Budget Enforcer's total-budget comparison
is performed with IEEE-754 binary64 values obtained by `parseFloat`
(comparisons against NaN being false), not with exact decimal
arithmetic; it accepts exactly when the rounded binary64 sum of the
cached total and the receipt amount does not exceed the binary64 value
of the limit. -/
theorem C5_checkTotalBudget_uses_binary64 (plan : Plan) (receipt : ReceiptInput) (amt : Frac)
    (h : parseF receipt.cost.amount = some amt) :
    checkTotalBudget plan receipt = .ok () ↔
      fgt (faddO (parseF (if plan.execution.spend.total_usdc = "" then "0"
                          else plan.execution.spend.total_usdc)) (some amt))
          (parseF plan.spec.budget.not_to_exceed_usdc) = false := by
  unfold checkTotalBudget
  rw [h]
  cases hfgt : fgt (faddO (parseF (if plan.execution.spend.total_usdc = "" then "0"
        else plan.execution.spend.total_usdc)) (some amt))
      (parseF plan.spec.budget.not_to_exceed_usdc) with
  | false => simp [hfgt]
  | true => simp [hfgt]

/-- Witness for the amended C5 theorem at the counterexample input. -/
theorem C5_checkTotalBudget_uses_binary64_witness :
    checkTotalBudget c5Plan c5Receipt = .ok () ↔
      fgt (faddO (parseF (if c5Plan.execution.spend.total_usdc = "" then "0"
                          else c5Plan.execution.spend.total_usdc))
            (some (roundB64 ⟨200000, 1000000⟩)))
          (parseF c5Plan.spec.budget.not_to_exceed_usdc) = false :=
  C5_checkTotalBudget_uses_binary64 c5Plan c5Receipt (roundB64 ⟨200000, 1000000⟩) (by decide)

/-! ## C6 — check order: allowlist before everything else -/

/-- Claim C6: `validateBudgetRules` runs the tool-policy check first;
whenever `require_allowlist` is set and the receipt's URL matches no
allowlist pattern, the outcome is `ToolNotAllowed` — step existence and
every budget check are irrelevant, because the failure happens before
they run. -/
theorem C6_allowlist_rejection_precedes_budget (plan : Plan) (receipt : ReceiptInput)
    (hreq : plan.spec.tool_policy.require_allowlist = true)
    (hnomatch : plan.spec.tool_policy.allowlist.any
      (fun pat => matchesPattern receipt.tool.url pat) = false) :
    validateBudgetRules plan receipt = .error (.toolNotAllowed "" receipt.tool.url) := by
  have hmt : matchToolAllowlist plan.spec.tool_policy receipt.tool.url =
      .error (.toolNotAllowed "" receipt.tool.url) := by
    unfold matchToolAllowlist
    rw [hreq]
    cases hd : (plan.spec.tool_policy.denylist.getD []).any
        (fun pat => matchesPattern receipt.tool.url pat) with
    | true => simp [hd]
    | false => simp [hd, hnomatch]
  unfold validateBudgetRules
  rw [hmt]
  rfl

/-- A receipt whose URL is outside the allowlist, whose step id is
absent from the plan, and whose amount exceeds every cap of the fixture
plan. -/
def c6Receipt : ReceiptInput :=
  { baseReceiptInput with
    step_id := "missing"
    tool := { method := "GET", url := "https://other.com/x" }
    cost := { currency := "USDC", amount := "5.000000" } }

/-- Witness for C6: on the fixture plan, the step is missing AND the
amount exceeds the total budget, yet the verdict is `ToolNotAllowed`. -/
theorem C6_allowlist_rejection_precedes_budget_witness :
    (basePlan.spec.steps.find? (fun s => s.id = c6Receipt.step_id) = none) ∧
    fgt (faddO (parseF basePlan.execution.spend.total_usdc) (parseF c6Receipt.cost.amount))
        (parseF basePlan.spec.budget.not_to_exceed_usdc) = true ∧
    validateBudgetRules basePlan c6Receipt = .error (.toolNotAllowed "" "https://other.com/x") :=
  ⟨by decide, by decide,
    C6_allowlist_rejection_precedes_budget basePlan c6Receipt rfl (by decide)⟩

/-! ## C8 — enforcer rejection: error propagated, no writes -/

/-- Claim C8: when the Budget Enforcer rejects (and the idempotency
pre-check found nothing), `createReceipt` returns that very error and
the state is untouched: no receipt row, no spend update, no
auto-completion. -/
theorem C8_createReceipt_propagates_rejection (db : DB) (planId userId : String)
    (receiptInput : ReceiptInput) (plan : Plan) (e : PlanErr)
    (hg : getPlan db planId userId = some plan)
    (hl : lookupExistingReceipt db planId receiptInput = none)
    (hv : validateBudgetRules plan receiptInput = .error e) :
    createReceipt db planId userId receiptInput = (.error e, db) := by
  simp only [createReceipt, hg, hl, hv]

/-- Witness for C8: the allowlist rejection of `c6Receipt` against the
fixture state comes back unchanged, with the state identical. -/
theorem C8_createReceipt_propagates_rejection_witness :
    createReceipt baseDb "p1" "u1" c6Receipt =
      (.error (.toolNotAllowed "" "https://other.com/x"), baseDb) :=
  C8_createReceipt_propagates_rejection baseDb "p1" "u1" c6Receipt basePlan
    (.toolNotAllowed "" "https://other.com/x") rfl rfl (by decide)

/-! ## C9 — step cap and default cap are independent ceilings -/

/-- Claim C9: in `checkPerRequestLimit`, a step-specific `max_cost_usdc`
does not waive the plan-wide `per_step_default_cap_usdc`: with both set,
an amount exceeding either cap (in the code's binary64 comparison) is
rejected with `BudgetExceeded`, citing whichever cap tripped. -/
theorem C9_per_step_caps_both_apply (budget : BudgetLimits) (step : PlanStep)
    (receipt : ReceiptInput) (amt : Frac)
    (hstep : truthy step.max_cost_usdc = true)
    (hdef : truthy budget.per_step_default_cap_usdc = true)
    (hamt : parseF receipt.cost.amount = some amt)
    (hexceeds : gtF amt (parseF (step.max_cost_usdc.getD "")) = true ∨
                gtF amt (parseF (budget.per_step_default_cap_usdc.getD "")) = true) :
    checkPerRequestLimit budget step receipt =
      .error (.budgetExceeded "" receipt.cost.amount "0" (step.max_cost_usdc.getD "")) ∨
    checkPerRequestLimit budget step receipt =
      .error (.budgetExceeded "" receipt.cost.amount "0" (budget.per_step_default_cap_usdc.getD "")) := by
  unfold checkPerRequestLimit
  rw [hamt]
  cases hfirst : (truthy step.max_cost_usdc &&
      gtF amt (parseF (step.max_cost_usdc.getD ""))) with
  | true => left; simp [hfirst]
  | false =>
    right
    have h2 : gtF amt (parseF (budget.per_step_default_cap_usdc.getD "")) = true := by
      rcases hexceeds with h | h
      · rw [hstep] at hfirst
        simp [h] at hfirst
      · exact h
    simp [hfirst, hdef, h2]

/-- A receipt whose amount (`0.350000`) respects the fixture step's own
cap (`0.400000`) but exceeds the plan-wide default cap (`0.300000`). -/
def c9Receipt : ReceiptInput :=
  { baseReceiptInput with cost := { currency := "USDC", amount := "0.350000" } }

/-- Witness for C9: within the step's own `max_cost_usdc` but above the
default cap, the receipt is still rejected — the step cap does not
override the default cap. -/
theorem C9_per_step_caps_both_apply_witness :
    checkPerRequestLimit baseBudget baseStep c9Receipt =
      .error (.budgetExceeded "" c9Receipt.cost.amount "0" (baseStep.max_cost_usdc.getD "")) ∨
    checkPerRequestLimit baseBudget baseStep c9Receipt =
      .error (.budgetExceeded "" c9Receipt.cost.amount "0" (baseBudget.per_step_default_cap_usdc.getD "")) :=
  C9_per_step_caps_both_apply baseBudget baseStep c9Receipt (roundB64 ⟨350000, 1000000⟩)
    rfl rfl (by decide) (Or.inr (by decide))

/-! ## C10 — auto-completion of a plan with no steps -/

/-- Claim C10: `autoCompletePlan` on a running or paused plan whose
`spec.steps` is empty marks it completed — `steps.every` holds
vacuously — even though `validateBudgetRules` can never accept a receipt
for such a plan (there is no step to match, and whatever the tool
policy, the outcome is an error). -/
theorem C10_autoComplete_empty_steps (db : DB) (planId : String) (plan : Plan)
    (hrow : db.plans.filter (fun p => p.id = planId) = [plan])
    (hstatus : plan.status = .running ∨ plan.status = .paused)
    (hsteps : plan.spec.steps = []) :
    (autoCompletePlan db planId).1 = some { plan with status := PlanStatus.completed } ∧
    ∀ receipt : ReceiptInput, validateBudgetRules plan receipt ≠ .ok () := by
  constructor
  · unfold autoCompletePlan
    rw [hrow]
    rcases hstatus with h | h <;> simp [h, hsteps]
  · intro receipt
    cases hmt : matchToolAllowlist plan.spec.tool_policy receipt.tool.url with
    | error e => simp [validateBudgetRules, hmt, Bind.bind, Except.bind]
    | ok u =>
      cases u
      simp [validateBudgetRules, hmt, hsteps, Bind.bind, Except.bind]

/-- The fixture plan with an empty step list. -/
def c10Plan : Plan := { basePlan with spec := { baseSpec with steps := [] } }

/-- State holding only the empty-steps plan. -/
def c10Db : DB := { baseDb with plans := [c10Plan] }

/-- Witness for C10 at the empty-steps running plan. -/
theorem C10_autoComplete_empty_steps_witness :
    (autoCompletePlan c10Db "p1").1 = some { c10Plan with status := PlanStatus.completed } :=
  (C10_autoComplete_empty_steps c10Db "p1" c10Plan rfl (Or.inl rfl) rfl).1

/-! ## C7 — idempotent receipts -/

/-- `filter` commutes with `map` when the predicate is invariant on the
mapped elements. -/
lemma filter_map_of_mem_inv {α : Type} (f : α → α) (pr : α → Bool) (l : List α)
    (h : ∀ p ∈ l, pr (f p) = pr p) :
    (l.map f).filter pr = (l.filter pr).map f := by
  induction l with
  | nil => rfl
  | cons a t ih =>
    simp only [List.map_cons, List.filter_cons, h a (List.mem_cons_self a t)]
    cases hpa : pr a with
    | true => simp [ih fun p hp => h p (List.mem_cons_of_mem a hp)]
    | false => simp [ih fun p hp => h p (List.mem_cons_of_mem a hp)]

/-- `getPlan` reads only the plans table. -/
lemma getPlan_congr_plans (db db2 : DB) (planId userId : String)
    (h : db2.plans = db.plans) :
    getPlan db2 planId userId = getPlan db planId userId := by
  unfold getPlan
  rw [h]

/-- `getPlan` after an id- and owner-preserving rewrite of the plans
table. -/
lemma getPlan_of_plans_map (db db2 : DB) (f : Plan → Plan) (planId userId : String)
    (hplans : db2.plans = db.plans.map f)
    (hf : ∀ p ∈ db.plans, (f p).id = p.id ∧ (f p).owner_id = p.owner_id) :
    getPlan db2 planId userId = (getPlan db planId userId).map f := by
  unfold getPlan
  rw [hplans,
    filter_map_of_mem_inv f (fun p => p.id = planId && p.owner_id = userId) db.plans
      (fun p hp => by simp [(hf p hp).1, (hf p hp).2])]
  cases h : db.plans.filter (fun p => p.id = planId && p.owner_id = userId) with
  | nil => simp
  | cons a t => cases t <;> simp

/-- `updatePlanSpend` keeps the receipts table. -/
lemma updatePlanSpend_receipts (db : DB) (pid t r : String) :
    (updatePlanSpend db pid t r).receipts = db.receipts := rfl

/-- `checkPlanCompletion` keeps the receipts table. -/
lemma checkPlanCompletion_receipts (db : DB) (pid : String) :
    (checkPlanCompletion db pid).receipts = db.receipts := by
  unfold checkPlanCompletion autoCompletePlan
  split
  · split
    · rfl
    · dsimp only
      split
      · rfl
      · rfl
  · rfl

/-- `getPlan` stays inhabited across `updatePlanSpend`. -/
lemma getPlan_isSome_updatePlanSpend (db : DB) (pid t r planId userId : String)
    (h : (getPlan db planId userId).isSome) :
    (getPlan (updatePlanSpend db pid t r) planId userId).isSome := by
  rw [getPlan_of_plans_map db (updatePlanSpend db pid t r) _ planId userId rfl
    (fun p _ => by constructor <;> (split <;> rfl))]
  obtain ⟨a, ha⟩ := Option.isSome_iff_exists.mp h
  rw [ha]
  rfl

/-- The plans table after `checkPlanCompletion`: unchanged, or the
unique plan with the given id replaced by its completed copy. -/
lemma checkPlanCompletion_cases (db : DB) (pid : String) :
    (checkPlanCompletion db pid).plans = db.plans ∨
    ∃ plan, db.plans.filter (fun p => p.id = pid) = [plan] ∧
      (checkPlanCompletion db pid).plans =
        db.plans.map fun p =>
          if p.id = pid then { plan with status := PlanStatus.completed } else p := by
  unfold checkPlanCompletion autoCompletePlan
  split
  case _ plan heq =>
    split
    · left; rfl
    · dsimp only
      split
      · right; exact ⟨plan, heq, rfl⟩
      · left; rfl
  case _ => left; rfl

/-- `getPlan` stays inhabited across `checkPlanCompletion`. -/
lemma getPlan_isSome_checkPlanCompletion (db : DB) (pid planId userId : String)
    (h : (getPlan db planId userId).isSome) :
    (getPlan (checkPlanCompletion db pid) planId userId).isSome := by
  rcases checkPlanCompletion_cases db pid with hp | ⟨plan, hfl, hp⟩
  · rw [getPlan_congr_plans db (checkPlanCompletion db pid) planId userId hp]
    exact h
  · have huniq : ∀ p ∈ db.plans, p.id = pid → p = plan := by
      intro p hpmem hpid
      have hmem : p ∈ db.plans.filter (fun p => p.id = pid) :=
        List.mem_filter.mpr ⟨hpmem, by simp [hpid]⟩
      rw [hfl] at hmem
      simpa using hmem
    rw [getPlan_of_plans_map db (checkPlanCompletion db pid) _ planId userId hp ?hf]
    · obtain ⟨a, ha⟩ := Option.isSome_iff_exists.mp h
      rw [ha]
      rfl
    case hf =>
      intro p hpmem
      by_cases hc : p.id = pid
      · have hep : p = plan := huniq p hpmem hc
        subst hep
        simp [hc]
      · simp [hc]

/-- Claim C7: submitting the same `ReceiptInput` (with a payment
reference) after a successful `createReceipt` returns the stored receipt
unchanged with the state unchanged — the idempotency pre-check finds the
stored row, so no validation re-runs and no write happens; the source's
unique-constraint collision branch performs the very same lookup and can
only return an already-stored row as well. -/
theorem C7_createReceipt_idempotent (db : DB) (planId userId : String)
    (receiptInput : ReceiptInput) (stored : Receipt) (db' : DB)
    (href : truthy receiptInput.x402.payment_reference = true)
    (h : createReceipt db planId userId receiptInput = (.ok stored, db')) :
    createReceipt db' planId userId receiptInput = (.ok stored, db') := by
  obtain ⟨s, hs, hsne⟩ : ∃ s, receiptInput.x402.payment_reference = some s ∧ s ≠ "" := by
    cases hr : receiptInput.x402.payment_reference with
    | none => rw [hr] at href; simp [truthy] at href
    | some s =>
      refine ⟨s, rfl, ?_⟩
      rw [hr] at href
      simp [truthy] at href
      exact href
  unfold createReceipt at h
  cases hg : getPlan db planId userId with
  | none =>
    rw [hg] at h
    simp at h
  | some plan =>
    simp only [hg] at h
    cases hl : lookupExistingReceipt db planId receiptInput with
    | some existing =>
      simp only [hl, Prod.mk.injEq, Except.ok.injEq] at h
      obtain ⟨h1, h2⟩ := h
      subst h1
      subst h2
      unfold createReceipt
      simp only [hg, hl]
    | none =>
      simp only [hl] at h
      cases hv : validateBudgetRules plan receiptInput with
      | error e =>
        simp only [hv] at h
        simp at h
      | ok u =>
        cases u
        simp only [hv] at h
        cases hi : insertReceipt db planId receiptInput with
        | none =>
          simp only [hi, hl] at h
          simp at h
        | some pr =>
          obtain ⟨row, db1⟩ := pr
          simp only [hi, Prod.mk.injEq, Except.ok.injEq] at h
          obtain ⟨h1, h2⟩ := h
          subst h1
          -- decompose the successful insert
          unfold insertReceipt at hi
          cases hc : receiptInsertCollides db planId receiptInput with
          | true =>
            rw [hc] at hi
            simp at hi
          | false =>
            simp only [hc, Bool.false_eq_true, if_false, Option.some.injEq, Prod.mk.injEq] at hi
            obtain ⟨hrow, hdb1⟩ := hi
            -- the receipts of the final state
            have hrec' : db'.receipts = db.receipts ++ [row] := by
              rw [← h2, checkPlanCompletion_receipts, updatePlanSpend_receipts, ← hdb1]
              rw [hrow]
            -- the final state still resolves the plan
            have hq : ∃ q, getPlan db' planId userId = some q := by
              rw [← h2]
              have h0 : (getPlan db1 planId userId).isSome := by
                rw [getPlan_congr_plans db db1 planId userId (by rw [← hdb1])]
                simp [hg]
              exact Option.isSome_iff_exists.mp
                (getPlan_isSome_checkPlanCompletion _ planId planId userId
                  (getPlan_isSome_updatePlanSpend db1 planId _ _ planId userId h0))
            obtain ⟨q, hq⟩ := hq
            -- the stored row is found by the idempotency pre-check
            have hfound : lookupExistingReceipt db' planId receiptInput = some row := by
              unfold lookupExistingReceipt getReceiptByPaymentReference
              rw [href, if_pos rfl, hrec', List.filter_append]
              have hone : [row].filter (fun r =>
                  r.plan_id = planId && r.step_id = receiptInput.step_id &&
                  r.x402.payment_reference = some (receiptInput.x402.payment_reference.getD "")) =
                  [row] := by
                rw [← hrow]
                simp [newReceiptRow, hs]
              have hnil : db.receipts.filter (fun r =>
                  r.plan_id = planId && r.step_id = receiptInput.step_id &&
                  r.x402.payment_reference = some (receiptInput.x402.payment_reference.getD "")) =
                  [] := by
                unfold receiptInsertCollides at hc
                rw [hs] at hc
                simp only [Option.isSome_some, Bool.true_and] at hc
                refine List.filter_eq_nil_iff.mpr ?_
                intro r hr
                have := List.any_eq_false.mp hc r hr
                simp only [hs, Option.getD_some]
                simp only [hs] at this
                exact fun hcontra => this (by simpa using hcontra)
              rw [hone, hnil, List.nil_append]
            unfold createReceipt
            simp only [hq, hfound]

/-- The state after the first successful submission of
`baseReceiptInput` against the fixture state. -/
def c7Db1 : DB := (createReceipt baseDb "p1" "u1" baseReceiptInput).2

/-- Witness for C7: resubmitting `baseReceiptInput` after its successful
first submission returns the stored row with the state unchanged. -/
theorem C7_createReceipt_idempotent_witness :
    createReceipt c7Db1 "p1" "u1" baseReceiptInput = (.ok c2Row, c7Db1) :=
  C7_createReceipt_idempotent baseDb "p1" "u1" baseReceiptInput c2Row c7Db1
    (by decide) (by decide)
